import Mathlib

/-!
Shallow embedding of the weather application's data layer
(`weather_data.py`: `validate_input`, `fetch_current_weather`,
`fetch_forecast`, `parse_current_weather`, `parse_forecast`) and of the
error-message dispatch in `weather_app.py` (`WeatherApp.search_weather`).

Modelling conventions:
* Python strings are Lean `String`s; `str.strip` is modelled by `pyStrip`
  (drop whitespace from both ends of the character list), `str.title` by
  `pyTitle`.
* JSON values are the inductive `Json`; Python's `int` and `float` are kept
  apart (`jint` / `jfloat`) because `str()` renders them differently.
  Numbers are rationals: float formatting (`f"{x:.1f}"`, `str(x)`) is
  modelled on exact decimal values, which is where the program's tests and
  the specification exercise it.
* Python exceptions are the inductive `PyExc`; a fallible operation returns
  `Except PyExc _`.  `KeyError`/`IndexError` come from subscripting,
  `typeError` stands for the TypeError/AttributeError raised when a value
  has the wrong shape, `valueError`/`connectionError` mirror the exceptions
  raised explicitly by the source.
* The HTTP layer is a pure oracle `net : HttpRequest → HttpResponse`; each
  fetch function returns its result together with the list of requests it
  issued, so "no network call is made" is the trace being `[]`.
-/

namespace Weather

/-- JSON values as produced by `response.json()`.  Python's `json` module
keeps `int` and `float` distinct, so the model does too. -/
inductive Json where
  | jnull : Json
  | jint : Int → Json
  | jfloat : Rat → Json
  | jstr : String → Json
  | jarr : List Json → Json
  | jobj : List (String × Json) → Json

/-- The Python exceptions that the modelled code can raise. -/
inductive PyExc where
  | valueError : String → PyExc
  | connectionError : String → PyExc
  | keyError : String → PyExc
  | indexError : PyExc
  | typeError : PyExc
deriving DecidableEq

/-- Characters removed from the ends of a string by Python's `str.strip()`. -/
def trimChars (l : List Char) : List Char :=
  ((l.dropWhile Char.isWhitespace).reverse.dropWhile Char.isWhitespace).reverse

/-- Model of Python's `str.strip()`. -/
def pyStrip (s : String) : String :=
  String.mk (trimChars s.data)

/-- Model of Python's `str.title()`: a cased character following a non-cased
character is uppercased, every other cased character is lowercased. -/
def titleAux : Bool → List Char → List Char
  | _, [] => []
  | prevAlpha, c :: cs =>
      (if prevAlpha then c.toLower else c.toUpper) :: titleAux c.isAlpha cs

/-- Model of Python's `str.title()`. -/
def pyTitle (s : String) : String :=
  String.mk (titleAux false s.data)

/-- The character test of `validate_input`:
`c.isalpha() or c.isspace() or c in "-'.,"`. -/
def allowedChar (c : Char) : Bool :=
  c.isAlpha || c.isWhitespace || "-\x27.,".data.contains c

/-- Embedding of `validate_input` (weather_data.py lines 19-29).  The absent
argument (`validate_input(None)`) is modelled by `none`; Python's falsiness
test `not city_name` on a string is `s = ""`. -/
def validate_input (city_name : Option String) : Bool × String :=
  match city_name with
  | none => (false, "Please enter a city name.")
  | some s =>
    if s = "" ∨ pyStrip s = "" then
      (false, "Please enter a city name.")
    else if ((pyStrip s).data.all allowedChar) = false then
      (false, "City name contains invalid characters.")
    else
      (true, "")

/-- Round the fraction `a / b` (with `b > 0`) to the nearest integer,
halves to even — the rounding used by Python's fixed-point float
formatting. -/
def roundHalfEvenInt (a : Int) (b : Nat) : Int :=
  let q := Int.fdiv a (Int.ofNat b)
  let r := a - q * Int.ofNat b
  if 2 * r < Int.ofNat b then q
  else if Int.ofNat b < 2 * r then q + 1
  else if q % 2 = 0 then q else q + 1

/-- Model of Python's `f"{x:.1f}"`: round to one decimal place and render
with exactly one digit after the point. -/
def fmt1 (x : Rat) : String :=
  let n := roundHalfEvenInt (10 * x.num) x.den
  let m := n.natAbs
  (if n < 0 then "-" else "") ++ toString (m / 10) ++ "." ++ toString (m % 10)

/-- Left-pad a digit string with zeros to the given width. -/
def padZeros (s : String) (k : Nat) : String :=
  if k ≤ s.length then s
  else String.mk (List.replicate (k - s.length) '0') ++ s

/-- Model of Python's `str()` on a float whose value is an exact decimal:
render the shortest decimal expansion, with at least one digit after the
point.  Values that are not exact decimals fall back to the raw rational
rendering (never exercised by the program's data, whose floats come from
decimal JSON literals). -/
def jfloatStr (x : Rat) : String :=
  match (List.range 40).find? (fun k => 10 ^ k % x.den == 0) with
  | some k =>
      let n := x.num * Int.ofNat (10 ^ k / x.den)
      let m := n.natAbs
      (if n < 0 then "-" else "") ++ toString (m / 10 ^ k) ++ "." ++
        (if k = 0 then "0" else padZeros (toString (m % 10 ^ k)) k)
  | none => toString x.num ++ "/" ++ toString x.den

/-- Model of Python's `str()` as used in f-strings on JSON leaf values.
Containers do not occur at the formatted positions in this program, so they
are rendered by a placeholder. -/
def pyStr : Json → String
  | .jnull => "None"
  | .jint n => toString n
  | .jfloat x => jfloatStr x
  | .jstr s => s
  | .jarr _ => "<list>"
  | .jobj _ => "<dict>"

/-- First binding of a key in a JSON object's field list. -/
def lookupField : List (String × Json) → String → Option Json
  | [], _ => none
  | (k, v) :: fs, key => if k = key then some v else lookupField fs key

/-- Python subscripting `data[key]` on a dict: `KeyError` when the key is
absent, `TypeError` when the value is not a dict. -/
def jGet : Json → String → Except PyExc Json
  | .jobj fs, key =>
    match lookupField fs key with
    | some v => .ok v
    | none => .error (.keyError key)
  | _, _ => .error .typeError

/-- Python subscripting `data[i]` on a list: `IndexError` when out of range,
`TypeError` when the value is not a list. -/
def jIndex : Json → Nat → Except PyExc Json
  | .jarr xs, i =>
    match xs.get? i with
    | some v => .ok v
    | none => .error .indexError
  | _, _ => .error .typeError

/-- Numeric JSON value as a rational (Python lets `int` and `float` mix in
arithmetic, comparison and `:.1f` formatting); anything else raises
`TypeError`. -/
def asNum : Json → Except PyExc Rat
  | .jint n => .ok (n : Rat)
  | .jfloat x => .ok x
  | _ => .error .typeError

/-- JSON value that must be a string (a non-string raises when a `str`
method is called on it). -/
def asStr : Json → Except PyExc String
  | .jstr s => .ok s
  | _ => .error .typeError

/-- JSON value that must be a list (iteration / `max` demand it). -/
def asArr : Json → Except PyExc (List Json)
  | .jarr xs => .ok xs
  | _ => .error .typeError

/-- The module-level configuration imported by `weather_data.py` from
`config.py`; each item is `none` when the import falls back (lines 11-16). -/
structure WeatherConfig where
  API_KEY : Option String
  CURRENT_WEATHER_URL : Option String
  FORECAST_URL : Option String

/-- Python truthiness of the `API_KEY` configuration value
(`not API_KEY` is true for `None` and for the empty string). -/
def pyTruthy : Option String → Bool
  | none => false
  | some s => !(s == "")

/-- One HTTP GET as issued by `requests.get(url, params=..., timeout=10)`:
the endpoint URL and the query parameters `q`, `appid`, `units`, plus the
timeout. -/
structure HttpRequest where
  url : Option String
  q : String
  appid : String
  units : String
  timeoutSecs : Nat
deriving DecidableEq

/-- An HTTP response: status code and JSON body. -/
structure HttpResponse where
  status : Nat
  body : Json

/-- The request built by `fetch_current_weather` (weather_data.py lines
42-47): `q` is the stripped city, `appid` the configured key, `units`
is the constant string metric, timeout 10. -/
def currentRequest (cfg : WeatherConfig) (city : String) : HttpRequest :=
  { url := cfg.CURRENT_WEATHER_URL, q := pyStrip city,
    appid := cfg.API_KEY.getD "", units := "metric", timeoutSecs := 10 }

/-- The request built by `fetch_forecast` (weather_data.py lines 69-74);
identical to `currentRequest` except for the endpoint URL. -/
def forecastRequest (cfg : WeatherConfig) (city : String) : HttpRequest :=
  { url := cfg.FORECAST_URL, q := pyStrip city,
    appid := cfg.API_KEY.getD "", units := "metric", timeoutSecs := 10 }

/-- Embedding of `fetch_current_weather` (weather_data.py lines 32-56).
The network is a pure oracle `net`; the second component of the result is
the list of HTTP requests issued, so a missing-key failure with trace `[]`
is a failure before any network call. -/
def fetch_current_weather (cfg : WeatherConfig) (net : HttpRequest → HttpResponse)
    (city : String) : Except PyExc Json × List HttpRequest :=
  if pyTruthy cfg.API_KEY = false then
    (.error (.valueError "API key is missing. Please set it in config.py."), [])
  else
    let req := currentRequest cfg city
    let resp := net req
    if resp.status = 404 then
      (.error (.valueError ("City \x27" ++ city ++ "\x27 not found. Please check the name.")), [req])
    else if resp.status = 401 then
      (.error (.valueError "Invalid API key. Please check config.py."), [req])
    else if resp.status ≠ 200 then
      (.error (.connectionError ("API error (status " ++ toString resp.status ++ ").")), [req])
    else
      (.ok resp.body, [req])

/-- Embedding of `fetch_forecast` (weather_data.py lines 59-83); the body is
a line-for-line copy of `fetch_current_weather` reading `FORECAST_URL`
instead of `CURRENT_WEATHER_URL`, exactly as in the source. -/
def fetch_forecast (cfg : WeatherConfig) (net : HttpRequest → HttpResponse)
    (city : String) : Except PyExc Json × List HttpRequest :=
  if pyTruthy cfg.API_KEY = false then
    (.error (.valueError "API key is missing. Please set it in config.py."), [])
  else
    let req := forecastRequest cfg city
    let resp := net req
    if resp.status = 404 then
      (.error (.valueError ("City \x27" ++ city ++ "\x27 not found. Please check the name.")), [req])
    else if resp.status = 401 then
      (.error (.valueError "Invalid API key. Please check config.py.")
        , [req])
    else if resp.status ≠ 200 then
      (.error (.connectionError ("API error (status " ++ toString resp.status ++ ").")), [req])
    else
      (.ok resp.body, [req])

/-- The display record produced by `parse_current_weather`. -/
structure CurrentWeather where
  temperature : String
  condition : String
  humidity : String
  wind_speed : String
deriving DecidableEq

/-- Embedding of `parse_current_weather` (weather_data.py lines 86-93).
The lookups run in the evaluation order of the Python dict literal:
`main.temp`, `weather[0].description`, `main.humidity`, `wind.speed`;
the first raised exception aborts the whole call. -/
def parse_current_weather (data : Json) : Except PyExc CurrentWeather := do
  let mainV ← jGet data "main"
  let tempV ← jGet mainV "temp"
  let temp ← asNum tempV
  let weatherV ← jGet data "weather"
  let w0 ← jIndex weatherV 0
  let descV ← jGet w0 "description"
  let desc ← asStr descV
  let mainV2 ← jGet data "main"
  let humV ← jGet mainV2 "humidity"
  let windV ← jGet data "wind"
  let speedV ← jGet windV "speed"
  pure { temperature := fmt1 temp ++ " °C",
         condition := pyTitle desc,
         humidity := pyStr humV ++ "%",
         wind_speed := pyStr speedV ++ " m/s" }

/-- The status-label text chosen by the `except` chain of
`WeatherApp.search_weather` (weather_app.py lines 169-186) for an exception
escaping the fetch/parse calls: `ValueError` shows its own message,
`KeyError`/`IndexError` show the generic parsing-error text, and the
remaining exceptions are not caught by any of those clauses (`none`) —
the built-in `ConnectionError` raised by the fetchers is not an instance of
`requests.ConnectionError`/`requests.RequestException`. -/
def searchErrorText : PyExc → Option String
  | .valueError msg => some msg
  | .connectionError _ => none
  | .keyError _ => some "Error parsing weather data. Unexpected response format."
  | .indexError => some "Error parsing weather data. Unexpected response format."
  | .typeError => none

/-- Gregorian leap-year test. -/
def isLeap (y : Nat) : Bool :=
  y % 4 == 0 && (y % 100 != 0 || y % 400 == 0)

/-- Number of days in a month, as validated by `datetime.strptime`. -/
def monthLength (y m : Nat) : Nat :=
  if m == 2 then (if isLeap y then 29 else 28)
  else if m == 4 || m == 6 || m == 9 || m == 11 then 30
  else 31

/-- Split a character list at every occurrence of a separator character,
as Python's `str.split` with a one-character separator (the only kind this
program uses). -/
def splitCharAux (sep : Char) : List Char → List Char → List (List Char)
  | [], acc => [acc.reverse]
  | c :: cs, acc =>
      if c = sep then acc.reverse :: splitCharAux sep cs []
      else splitCharAux sep cs (c :: acc)

/-- Model of Python's `s.split(sep)` for a one-character separator. -/
def splitChar (sep : Char) (s : String) : List String :=
  (splitCharAux sep s.data []).map String.mk

/-- Decimal value of a non-empty all-digit character list, `none`
otherwise — the integer-field parsing of `strptime`. -/
def digitsToNat? (l : List Char) : Option Nat :=
  if l ≠ [] ∧ l.all Char.isDigit then
    some (l.foldl (fun n c => 10 * n + (c.toNat - 48)) 0)
  else none

/-- Model of `datetime.strptime(s, "%Y-%m-%d")`: three dash-separated
decimal components forming a valid Gregorian calendar date. -/
def parseDateYMD (s : String) : Option (Nat × Nat × Nat) :=
  match splitChar '-' s with
  | [ys, ms, ds] =>
    match digitsToNat? ys.data, digitsToNat? ms.data, digitsToNat? ds.data with
    | some y, some m, some d =>
      if 1 ≤ y ∧ y ≤ 9999 ∧ 1 ≤ m ∧ m ≤ 12 ∧ 1 ≤ d ∧ d ≤ monthLength y m then
        some (y, m, d)
      else none
    | _, _, _ => none
  | _ => none

/-- Day of week of a Gregorian date (Sakamoto's method), 0 = Sunday. -/
def dayOfWeek (y m d : Nat) : Nat :=
  let t := [0, 3, 2, 5, 0, 3, 5, 1, 4, 6, 2, 4]
  let y2 := if m < 3 then y - 1 else y
  (y2 + y2 / 4 - y2 / 100 + y2 / 400 + t.getD (m - 1) 0 + d) % 7

/-- Abbreviated weekday name, as `strftime("%a")` in the C locale. -/
def weekdayAbbrev (y m d : Nat) : String :=
  ["Sun", "Mon", "Tue", "Wed", "Thu", "Fri", "Sat"].getD (dayOfWeek y m d) ""

/-- Abbreviated month name, as `strftime("%b")` in the C locale. -/
def monthAbbrev (m : Nat) : String :=
  ["Jan", "Feb", "Mar", "Apr", "May", "Jun",
   "Jul", "Aug", "Sep", "Oct", "Nov", "Dec"].getD (m - 1) ""

/-- Zero-padded two-digit day, as `strftime("%d")`. -/
def pad2 (d : Nat) : String :=
  if d < 10 then "0" ++ toString d else toString d

/-- Model of
`datetime.strptime(date_str, "%Y-%m-%d").strftime("%a, %b %d")`
(weather_data.py line 115); `strptime` raises `ValueError` when the string
is not a valid date in that format. -/
def formatDateLabel (s : String) : Except PyExc String :=
  match parseDateYMD s with
  | some (y, m, d) =>
      .ok (weekdayAbbrev y m d ++ ", " ++ monthAbbrev m ++ " " ++ pad2 d)
  | none =>
      .error (.valueError
        ("time data \x27" ++ s ++ "\x27 does not match format \x27%Y-%m-%d\x27"))

/-- Python's `max` over a list of numbers; `0` on `[]`, which the forecast
parser never reaches (a bucket always holds a sample). -/
def listMax : List Rat → Rat
  | [] => 0
  | x :: xs => xs.foldl max x

/-- Python's `min` over a list of numbers; `0` on `[]`, never reached. -/
def listMin : List Rat → Rat
  | [] => 0
  | x :: xs => xs.foldl min x

/-- Distinct values of a list in first-encounter order — the model of
iterating `set(conditions)` (CPython's set order is unspecified; the
specification flags the tie-break as arbitrary, so the model fixes
first-encounter order). -/
def dedupAcc (seen : List String) : List String → List String
  | [] => []
  | x :: xs =>
      if x ∈ seen then dedupAcc seen xs
      else x :: dedupAcc (x :: seen) xs

/-- Model of `max(set(conds), key=conds.count)` (weather_data.py line 113):
scan the distinct values, keeping the current best unless a later value has
a strictly greater count — exactly Python's `max` semantics. -/
def mostCommon (conds : List String) : String :=
  match dedupAcc [] conds with
  | [] => ""
  | c :: rest =>
      rest.foldl (fun best x => if conds.count best < conds.count x then x else best) c

/-- One raw 3-hour interval sample: date key (the part of `dt_txt` before
the first space), temperature, condition description. -/
abbrev Sample := String × Rat × String

/-- Extraction of one sample from a raw interval item (weather_data.py
lines 104-107): `item["dt_txt"].split(" ")[0]`, `item["main"]["temp"]`,
`item["weather"][0]["description"]`.  The numeric/string shape checks that
Python would raise later (at formatting / `.title()`) are performed here;
either way an ill-shaped item makes the whole parse fail. -/
def extractSample (item : Json) : Except PyExc Sample := do
  let dtV ← jGet item "dt_txt"
  let dt ← asStr dtV
  let dateStr := (splitChar ' ' dt).headD ""
  let mainV ← jGet item "main"
  let tempV ← jGet mainV "temp"
  let temp ← asNum tempV
  let weatherV ← jGet item "weather"
  let w0 ← jIndex weatherV 0
  let descV ← jGet w0 "description"
  let desc ← asStr descV
  pure (dateStr, temp, desc)

/-- A daily bucket: the temperatures and condition descriptions of all
samples sharing one calendar date, in encounter order. -/
structure Bucket where
  temps : List Rat
  conditions : List String

/-- Grouping of the samples into daily buckets, keyed by date string —
the `defaultdict` loop of weather_data.py lines 102-107.  Keys appear in
first-encounter order and each bucket lists its day's temperatures and
conditions in encounter order, exactly as the single-pass append loop
produces them. -/
def groupSamplesAux : Nat → List Sample → List (String × Bucket)
  | _, [] => []
  | 0, _ :: _ => []
  | fuel + 1, s :: rest =>
      let k := s.1
      let same := rest.filter (fun r => r.1 == k)
      (k, { temps := s.2.1 :: same.map (fun r => r.2.1),
            conditions := s.2.2 :: same.map (fun r => r.2.2) })
        :: groupSamplesAux fuel (rest.filter (fun r => !(r.1 == k)))

/-- The grouping itself; the fuel `l.length` always suffices because each
recursive call works on a sublist of the tail. -/
def groupSamples (l : List Sample) : List (String × Bucket) :=
  groupSamplesAux l.length l

/-- Lexicographic comparison of character lists by code point — the
ordering Python's `sorted` uses on strings. -/
def charListLeb : List Char → List Char → Bool
  | [], _ => true
  | _ :: _, [] => false
  | a :: as, b :: bs => if a = b then charListLeb as bs else decide (a < b)

/-- Model of Python's `s1 <= s2` on strings. -/
def strLeb (a b : String) : Bool := charListLeb a.data b.data

/-- Ordering of daily buckets by their date key; `sorted(daily.keys())`
followed by `daily[key]` lookups is, for the distinct keys the grouping
produces, the same as sorting the key-bucket pairs by key. -/
def keyLE (a b : String × Bucket) : Prop := strLeb a.1 b.1 = true

instance : DecidableRel keyLE :=
  fun a b => (inferInstance : Decidable (strLeb a.1 b.1 = true))

theorem charListLeb_total : ∀ a b : List Char,
    charListLeb a b = true ∨ charListLeb b a = true := by
  intro a
  induction a with
  | nil => intro b; left; rfl
  | cons x xs ih =>
      intro b
      cases b with
      | nil => right; rfl
      | cons y ys =>
          by_cases hxy : x = y
          · subst hxy
            simpa [charListLeb] using ih ys
          · rcases lt_or_gt_of_ne hxy with h | h
            · left; simp [charListLeb, hxy, h]
            · right; simp [charListLeb, Ne.symm hxy, h]

theorem charListLeb_trans : ∀ a b c : List Char,
    charListLeb a b = true → charListLeb b c = true → charListLeb a c = true := by
  intro a
  induction a with
  | nil => intro b c _ _; rfl
  | cons x xs ih =>
      intro b c hab hbc
      cases b with
      | nil => simp [charListLeb] at hab
      | cons y ys =>
          cases c with
          | nil => simp [charListLeb] at hbc
          | cons z zs =>
              by_cases hxy : x = y <;> by_cases hyz : y = z
              · subst hxy; subst hyz
                simp only [charListLeb, if_pos rfl] at hab hbc ⊢
                exact ih ys zs hab hbc
              · subst hxy
                simp [charListLeb, hyz] at hbc ⊢
                exact hbc
              · subst hyz
                simp [charListLeb, hxy] at hab ⊢
                exact hab
              · simp only [charListLeb, if_neg hxy] at hab
                simp only [charListLeb, if_neg hyz] at hbc
                have hxz : x < z := lt_trans (of_decide_eq_true hab) (of_decide_eq_true hbc)
                simp [charListLeb, ne_of_lt hxz, hxz]

instance : IsTotal (String × Bucket) keyLE :=
  ⟨fun a b => charListLeb_total a.1.data b.1.data⟩

instance : IsTrans (String × Bucket) keyLE :=
  ⟨fun a b c h1 h2 => charListLeb_trans a.1.data b.1.data c.1.data h1 h2⟩

/-- One output row of the forecast table. -/
structure ForecastEntry where
  date : String
  max_temp : String
  min_temp : String
  condition : String
deriving DecidableEq

/-- The entry built for one daily bucket (weather_data.py lines 112-119):
format the date label, the bucket's max and min temperature to one decimal
with the degree suffix, and the most common condition, title-cased. -/
def bucketEntry (kb : String × Bucket) : Except PyExc ForecastEntry := do
  let dateLabel ← formatDateLabel kb.1
  pure { date := dateLabel,
         max_temp := fmt1 (listMax kb.2.temps) ++ " °C",
         min_temp := fmt1 (listMin kb.2.temps) ++ " °C",
         condition := pyTitle (mostCommon kb.2.conditions) }

/-- Map a fallible function over a list, stopping at the first raised
exception — the behaviour of a Python `for` loop whose body may raise. -/
def mapExcept (f : α → Except PyExc β) : List α → Except PyExc (List β)
  | [] => .ok []
  | a :: l =>
    match f a with
    | .error e => .error e
    | .ok b =>
      match mapExcept f l with
      | .error e => .error e
      | .ok bs => .ok (b :: bs)

/-- The sample-extraction phase of `parse_forecast` (weather_data.py lines
102-107): iterate `data["list"]`. -/
def extractSamples (data : Json) : Except PyExc (List Sample) :=
  match jGet data "list" with
  | .error e => .error e
  | .ok lv =>
    match asArr lv with
    | .error e => .error e
    | .ok items => mapExcept extractSample items

/-- Embedding of `parse_forecast` (weather_data.py lines 96-121): extract
the samples, group them by date, then build one entry per date in ascending
key order. -/
def parse_forecast (data : Json) : Except PyExc (List ForecastEntry) :=
  match extractSamples data with
  | .error e => .error e
  | .ok samples =>
      mapExcept bucketEntry (List.insertionSort keyLE (groupSamples samples))

/-! Lemmas about dropping characters from the ends of a string. -/

theorem mem_dropWhile_of_neg {α : Type} {p : α → Bool} {c : α} (hc : p c = false) :
    ∀ {l : List α}, c ∈ l → c ∈ l.dropWhile p := by
  intro l
  induction l with
  | nil => intro h; exact absurd h (List.not_mem_nil c)
  | cons a t ih =>
      intro h
      by_cases ha : p a = true
      · simp only [List.dropWhile, ha]
        rcases List.mem_cons.mp h with rfl | ht
        · rw [hc] at ha; exact absurd ha (by simp)
        · exact ih ht
      · simp only [List.dropWhile, Bool.eq_false_iff.mpr ha]
        exact h

theorem mem_of_mem_dropWhile {α : Type} {p : α → Bool} {c : α} :
    ∀ {l : List α}, c ∈ l.dropWhile p → c ∈ l := by
  intro l
  induction l with
  | nil => intro h; simp [List.dropWhile] at h
  | cons a t ih =>
      intro h
      by_cases ha : p a = true
      · simp only [List.dropWhile, ha] at h
        exact List.mem_cons_of_mem a (ih h)
      · simp only [List.dropWhile, Bool.eq_false_iff.mpr ha] at h
        exact h

theorem mem_trimChars_of_not_ws {c : Char} (hc : c.isWhitespace = false)
    {l : List Char} (h : c ∈ l) : c ∈ trimChars l := by
  unfold trimChars
  rw [List.mem_reverse]
  exact mem_dropWhile_of_neg hc (List.mem_reverse.mpr (mem_dropWhile_of_neg hc h))

theorem mem_of_mem_trimChars {c : Char} {l : List Char} (h : c ∈ trimChars l) :
    c ∈ l := by
  unfold trimChars at h
  rw [List.mem_reverse] at h
  exact mem_of_mem_dropWhile (List.mem_reverse.mp (mem_of_mem_dropWhile h))

theorem pyStrip_data (s : String) : (pyStrip s).data = trimChars s.data := rfl

theorem allowedChar_false_not_ws {c : Char} (h : allowedChar c = false) :
    c.isWhitespace = false := by
  unfold allowedChar at h
  cases hw : c.isWhitespace with
  | false => rfl
  | true => rw [hw] at h; simp at h

/-- C4. `validate_input`: an absent or (after stripping) empty input is
rejected with the enter-a-city-name message; a non-blank input with a
character outside {alphabetic, whitespace, hyphen, apostrophe, period,
comma} is rejected with the invalid-characters message; every other input
is accepted with an empty message. -/
theorem validate_input_cases (input : Option String) :
    ((input = none ∨ ∃ s, input = some s ∧ pyStrip s = "") →
        validate_input input = (false, "Please enter a city name.")) ∧
    (∀ s, input = some s → pyStrip s ≠ "" →
        (∃ c ∈ s.data, allowedChar c = false) →
        validate_input input = (false, "City name contains invalid characters.")) ∧
    (∀ s, input = some s → pyStrip s ≠ "" →
        (∀ c ∈ s.data, allowedChar c = true) →
        validate_input input = (true, "")) := by
  refine ⟨?_, ?_, ?_⟩
  · rintro (rfl | ⟨s, rfl, hs⟩)
    · rfl
    · simp [validate_input, hs]
  · rintro s rfl hne ⟨c, hc, hbad⟩
    have hsne : ¬ (s = "" ∨ pyStrip s = "") := by
      rintro (rfl | h)
      · exact hne rfl
      · exact hne h
    have hmem : c ∈ (pyStrip s).data := by
      rw [pyStrip_data]
      exact mem_trimChars_of_not_ws (allowedChar_false_not_ws hbad) hc
    have hall : ((pyStrip s).data.all allowedChar) = false := by
      refine Bool.eq_false_iff.mpr (fun hall => ?_)
      have := List.all_eq_true.mp hall c hmem
      rw [hbad] at this
      exact Bool.false_ne_true this
    simp [validate_input, hsne, hall]
  · rintro s rfl hne hgood
    have hsne : ¬ (s = "" ∨ pyStrip s = "") := by
      rintro (rfl | h)
      · exact hne rfl
      · exact hne h
    have hall : ((pyStrip s).data.all allowedChar) = true := by
      refine List.all_eq_true.mpr (fun c hc => ?_)
      rw [pyStrip_data] at hc
      exact hgood c (mem_of_mem_trimChars hc)
    simp [validate_input, hsne, hall]

/-- C4 witness: the three cases of `validate_input_cases` at concrete
inputs from the specification's examples. -/
theorem validate_input_cases_witness :
    validate_input (some "   ") = (false, "Please enter a city name.") ∧
    validate_input (some "London123") = (false, "City name contains invalid characters.") ∧
    validate_input (some "New York") = (true, "") := by
  refine ⟨?_, ?_, ?_⟩
  · exact (validate_input_cases (some "   ")).1 (Or.inr ⟨"   ", rfl, by decide⟩)
  · exact (validate_input_cases (some "London123")).2.1 "London123" rfl (by decide)
      ⟨'1', by decide, by decide⟩
  · exact (validate_input_cases (some "New York")).2.2 "New York" rfl (by decide)
      (by decide)

/-! Lemmas about Python `max`/`min` over a list (modelled by folds). -/

theorem le_foldl_max : ∀ (xs : List Rat) (b : Rat), b ≤ xs.foldl max b := by
  intro xs
  induction xs with
  | nil => intro b; exact le_refl b
  | cons x t ih =>
      intro b
      exact le_trans (le_max_left b x) (ih (max b x))

theorem mem_le_foldl_max : ∀ (xs : List Rat) (b x : Rat), x ∈ xs → x ≤ xs.foldl max b := by
  intro xs
  induction xs with
  | nil => intro b x hx; exact absurd hx (List.not_mem_nil x)
  | cons y t ih =>
      intro b x hx
      rcases List.mem_cons.mp hx with rfl | hx
      · exact le_trans (le_max_right b x) (le_foldl_max t (max b x))
      · exact ih (max b y) x hx

theorem foldl_max_mem : ∀ (xs : List Rat) (b : Rat), xs.foldl max b ∈ b :: xs := by
  intro xs
  induction xs with
  | nil => intro b; exact List.mem_singleton.mpr rfl
  | cons x t ih =>
      intro b
      rw [List.foldl_cons]
      rcases List.mem_cons.mp (ih (max b x)) with h | h
      · rw [h]
        rcases max_choice b x with hbx | hbx <;> rw [hbx]
        · exact List.mem_cons_self _ _
        · exact List.mem_cons_of_mem _ (List.mem_cons_self _ _)
      · exact List.mem_cons_of_mem _ (List.mem_cons_of_mem _ h)

theorem foldl_min_le : ∀ (xs : List Rat) (b : Rat), xs.foldl min b ≤ b := by
  intro xs
  induction xs with
  | nil => intro b; exact le_refl b
  | cons x t ih =>
      intro b
      exact le_trans (ih (min b x)) (min_le_left b x)

theorem foldl_min_le_mem : ∀ (xs : List Rat) (b x : Rat), x ∈ xs → xs.foldl min b ≤ x := by
  intro xs
  induction xs with
  | nil => intro b x hx; exact absurd hx (List.not_mem_nil x)
  | cons y t ih =>
      intro b x hx
      rcases List.mem_cons.mp hx with rfl | hx
      · exact le_trans (foldl_min_le t (min b x)) (min_le_right b x)
      · exact ih (min b y) x hx

theorem foldl_min_mem : ∀ (xs : List Rat) (b : Rat), xs.foldl min b ∈ b :: xs := by
  intro xs
  induction xs with
  | nil => intro b; exact List.mem_singleton.mpr rfl
  | cons x t ih =>
      intro b
      rw [List.foldl_cons]
      rcases List.mem_cons.mp (ih (min b x)) with h | h
      · rw [h]
        rcases min_choice b x with hbx | hbx <;> rw [hbx]
        · exact List.mem_cons_self _ _
        · exact List.mem_cons_of_mem _ (List.mem_cons_self _ _)
      · exact List.mem_cons_of_mem _ (List.mem_cons_of_mem _ h)

theorem listMax_mem {l : List Rat} (h : l ≠ []) : listMax l ∈ l := by
  cases l with
  | nil => exact absurd rfl h
  | cons x t => exact foldl_max_mem t x

theorem le_listMax {l : List Rat} : ∀ t ∈ l, t ≤ listMax l := by
  cases l with
  | nil => intro t ht; exact absurd ht (List.not_mem_nil t)
  | cons x xs =>
      intro t ht
      rcases List.mem_cons.mp ht with rfl | ht
      · exact le_foldl_max xs t
      · exact mem_le_foldl_max xs x t ht

theorem listMin_mem {l : List Rat} (h : l ≠ []) : listMin l ∈ l := by
  cases l with
  | nil => exact absurd rfl h
  | cons x t => exact foldl_min_mem t x

theorem listMin_le {l : List Rat} : ∀ t ∈ l, listMin l ≤ t := by
  cases l with
  | nil => intro t ht; exact absurd ht (List.not_mem_nil t)
  | cons x xs =>
      intro t ht
      rcases List.mem_cons.mp ht with rfl | ht
      · exact foldl_min_le xs t
      · exact foldl_min_le_mem xs x t ht

theorem listMin_le_listMax {l : List Rat} (h : l ≠ []) : listMin l ≤ listMax l :=
  listMin_le (listMax l) (listMax_mem h)

/-! Lemmas about the distinct-value scan and the most-common pick. -/

theorem mem_dedupAcc_of_mem :
    ∀ (l seen : List String) (c : String), c ∈ l → c ∈ seen ∨ c ∈ dedupAcc seen l := by
  intro l
  induction l with
  | nil => intro seen c hc; exact absurd hc (List.not_mem_nil c)
  | cons x xs ih =>
      intro seen c hc
      by_cases hx : x ∈ seen
      · simp only [dedupAcc, if_pos hx]
        rcases List.mem_cons.mp hc with rfl | hc
        · exact Or.inl hx
        · exact ih seen c hc
      · simp only [dedupAcc, if_neg hx]
        rcases List.mem_cons.mp hc with rfl | hc
        · exact Or.inr (List.mem_cons_self _ _)
        · rcases ih (x :: seen) c hc with hs | hd
          · rcases List.mem_cons.mp hs with rfl | hs
            · exact Or.inr (List.mem_cons_self _ _)
            · exact Or.inl hs
          · exact Or.inr (List.mem_cons_of_mem _ hd)

theorem mem_of_mem_dedupAcc :
    ∀ (l seen : List String) (c : String), c ∈ dedupAcc seen l → c ∈ l := by
  intro l
  induction l with
  | nil => intro seen c hc; exact absurd hc (List.not_mem_nil c)
  | cons x xs ih =>
      intro seen c hc
      by_cases hx : x ∈ seen
      · simp only [dedupAcc, if_pos hx] at hc
        exact List.mem_cons_of_mem _ (ih seen c hc)
      · simp only [dedupAcc, if_neg hx] at hc
        rcases List.mem_cons.mp hc with rfl | hc
        · exact List.mem_cons_self _ _
        · exact List.mem_cons_of_mem _ (ih (x :: seen) c hc)

theorem foldl_pick_mem (cnt : String → Nat) :
    ∀ (rest : List String) (c : String),
      rest.foldl (fun best x => if cnt best < cnt x then x else best) c ∈ c :: rest := by
  intro rest
  induction rest with
  | nil => intro c; exact List.mem_singleton.mpr rfl
  | cons x xs ih =>
      intro c
      simp only [List.foldl_cons]
      rcases List.mem_cons.mp (ih (if cnt c < cnt x then x else c)) with h | h
      · rw [h]
        by_cases hcx : cnt c < cnt x
        · rw [if_pos hcx]; exact List.mem_cons_of_mem _ (List.mem_cons_self _ _)
        · rw [if_neg hcx]; exact List.mem_cons_self _ _
      · exact List.mem_cons_of_mem _ (List.mem_cons_of_mem _ h)

theorem foldl_pick_bound (cnt : String → Nat) :
    ∀ (rest : List String) (c : String),
      cnt c ≤ cnt (rest.foldl (fun best x => if cnt best < cnt x then x else best) c) ∧
      ∀ x ∈ rest, cnt x ≤ cnt (rest.foldl (fun best x => if cnt best < cnt x then x else best) c) := by
  intro rest
  induction rest with
  | nil =>
      intro c
      exact ⟨le_refl _, fun x hx => absurd hx (List.not_mem_nil x)⟩
  | cons x xs ih =>
      intro c
      simp only [List.foldl_cons]
      have h1 : cnt c ≤ cnt (if cnt c < cnt x then x else c) := by
        by_cases hcx : cnt c < cnt x
        · rw [if_pos hcx]; exact le_of_lt hcx
        · rw [if_neg hcx]
      have h2 : cnt x ≤ cnt (if cnt c < cnt x then x else c) := by
        by_cases hcx : cnt c < cnt x
        · rw [if_pos hcx]
        · rw [if_neg hcx]; exact le_of_not_lt hcx
      obtain ⟨ih1, ih2⟩ := ih (if cnt c < cnt x then x else c)
      refine ⟨le_trans h1 ih1, fun y hy => ?_⟩
      rcases List.mem_cons.mp hy with rfl | hy
      · exact le_trans h2 ih1
      · exact ih2 y hy

theorem dedupAcc_ne_nil {conds : List String} (h : conds ≠ []) :
    dedupAcc [] conds ≠ [] := by
  cases conds with
  | nil => exact absurd rfl h
  | cons x xs =>
      intro hd
      have := mem_dedupAcc_of_mem (x :: xs) [] x (List.mem_cons_self x xs)
      rcases this with hs | hm
      · exact absurd hs (List.not_mem_nil x)
      · rw [hd] at hm; exact absurd hm (List.not_mem_nil x)

theorem mostCommon_mem {conds : List String} (h : conds ≠ []) :
    mostCommon conds ∈ conds := by
  unfold mostCommon
  cases hd : dedupAcc [] conds with
  | nil => exact absurd hd (dedupAcc_ne_nil h)
  | cons c rest =>
      have hm := foldl_pick_mem (fun s => conds.count s) rest c
      rw [← hd] at hm
      exact mem_of_mem_dedupAcc conds [] _ hm

theorem mostCommon_count_ge {conds : List String} (h : conds ≠ []) :
    ∀ x ∈ conds, conds.count x ≤ conds.count (mostCommon conds) := by
  intro x hx
  unfold mostCommon
  cases hd : dedupAcc [] conds with
  | nil => exact absurd hd (dedupAcc_ne_nil h)
  | cons c rest =>
      have hx2 : x ∈ dedupAcc [] conds :=
        (mem_dedupAcc_of_mem conds [] x hx).resolve_left (List.not_mem_nil x)
      rw [hd] at hx2
      obtain ⟨hb1, hb2⟩ := foldl_pick_bound (fun s => conds.count s) rest c
      rcases List.mem_cons.mp hx2 with rfl | hx2
      · exact hb1
      · exact hb2 x hx2

/-! Lemmas about `mapExcept` and the grouping. -/

theorem mapExcept_ok_length {α β : Type} {f : α → Except PyExc β} :
    ∀ {l : List α} {ys : List β}, mapExcept f l = .ok ys → ys.length = l.length := by
  intro l
  induction l with
  | nil =>
      intro ys h
      simp only [mapExcept] at h
      cases h; rfl
  | cons a t ih =>
      intro ys h
      simp only [mapExcept] at h
      cases hfa : f a with
      | error e => rw [hfa] at h; cases h
      | ok b =>
          rw [hfa] at h
          cases hm : mapExcept f t with
          | error e => rw [hm] at h; cases h
          | ok bs =>
              rw [hm] at h
              cases h
              simp [ih hm]

theorem mapExcept_ok_mem {α β : Type} {f : α → Except PyExc β} :
    ∀ {l : List α} {ys : List β}, mapExcept f l = .ok ys →
      ∀ y ∈ ys, ∃ x ∈ l, f x = .ok y := by
  intro l
  induction l with
  | nil =>
      intro ys h y hy
      simp only [mapExcept] at h
      cases h
      exact absurd hy (List.not_mem_nil y)
  | cons a t ih =>
      intro ys h y hy
      simp only [mapExcept] at h
      cases hfa : f a with
      | error e => rw [hfa] at h; cases h
      | ok b =>
          rw [hfa] at h
          cases hm : mapExcept f t with
          | error e => rw [hm] at h; cases h
          | ok bs =>
              rw [hm] at h
              cases h
              rcases List.mem_cons.mp hy with rfl | hy
              · exact ⟨a, List.mem_cons_self a t, hfa⟩
              · obtain ⟨x, hx, hfx⟩ := ih hm y hy
                exact ⟨x, List.mem_cons_of_mem a hx, hfx⟩

theorem mem_map_fst_groupSamplesAux :
    ∀ (fuel : Nat) (l : List Sample), l.length ≤ fuel → ∀ x : String,
      (x ∈ (groupSamplesAux fuel l).map Prod.fst ↔ x ∈ l.map Prod.fst) := by
  intro fuel
  induction fuel with
  | zero =>
      intro l hl x
      cases l with
      | nil => simp [groupSamplesAux]
      | cons s rest => simp at hl
  | succ n ih =>
      intro l hl x
      cases l with
      | nil => simp [groupSamplesAux]
      | cons s rest =>
          have hlen : (rest.filter (fun r => !(r.1 == s.1))).length ≤ n :=
            le_trans (List.length_filter_le _ _) (Nat.le_of_succ_le_succ hl)
          simp only [groupSamplesAux, List.map_cons, List.mem_cons,
            ih _ hlen x, List.mem_map, List.mem_filter]
          constructor
          · rintro (rfl | ⟨r, ⟨hr, _⟩, rfl⟩)
            · exact Or.inl rfl
            · exact Or.inr ⟨r, hr, rfl⟩
          · rintro (rfl | ⟨r, hr, rfl⟩)
            · exact Or.inl rfl
            · by_cases hx : r.1 = s.1
              · exact Or.inl hx
              · exact Or.inr ⟨r, ⟨hr, by simp [hx]⟩, rfl⟩

theorem nodup_map_fst_groupSamplesAux :
    ∀ (fuel : Nat) (l : List Sample), l.length ≤ fuel →
      ((groupSamplesAux fuel l).map Prod.fst).Nodup := by
  intro fuel
  induction fuel with
  | zero =>
      intro l hl
      cases l with
      | nil => simp [groupSamplesAux]
      | cons s rest => simp at hl
  | succ n ih =>
      intro l hl
      cases l with
      | nil => simp [groupSamplesAux]
      | cons s rest =>
          have hlen : (rest.filter (fun r => !(r.1 == s.1))).length ≤ n :=
            le_trans (List.length_filter_le _ _) (Nat.le_of_succ_le_succ hl)
          simp only [groupSamplesAux, List.map_cons, List.nodup_cons]
          refine ⟨fun hmem => ?_, ih _ hlen⟩
          rw [mem_map_fst_groupSamplesAux n _ hlen s.1] at hmem
          obtain ⟨r, hr, hr1⟩ := List.mem_map.mp hmem
          have := (List.mem_filter.mp hr).2
          rw [hr1] at this
          simp at this

theorem bucket_nonempty_groupSamplesAux :
    ∀ (fuel : Nat) (l : List Sample) (k : String) (b : Bucket),
      (k, b) ∈ groupSamplesAux fuel l → b.temps ≠ [] ∧ b.conditions ≠ [] := by
  intro fuel
  induction fuel with
  | zero =>
      intro l k b hm
      cases l with
      | nil => simp [groupSamplesAux] at hm
      | cons s rest => simp [groupSamplesAux] at hm
  | succ n ih =>
      intro l k b hm
      cases l with
      | nil => simp [groupSamplesAux] at hm
      | cons s rest =>
          simp only [groupSamplesAux, List.mem_cons] at hm
          rcases hm with hm | hm
          · injection hm with hk hb
            rw [hb]
            exact ⟨List.cons_ne_nil _ _, List.cons_ne_nil _ _⟩
          · exact ih _ k b hm

/-- Membership in the grouping's key list is membership among the samples'
dates. -/
theorem mem_map_fst_groupSamples (l : List Sample) (x : String) :
    x ∈ (groupSamples l).map Prod.fst ↔ x ∈ l.map Prod.fst :=
  mem_map_fst_groupSamplesAux l.length l (le_refl _) x

/-- The grouping produces each date key once. -/
theorem nodup_map_fst_groupSamples (l : List Sample) :
    ((groupSamples l).map Prod.fst).Nodup :=
  nodup_map_fst_groupSamplesAux l.length l (le_refl _)

/-- Every bucket the grouping produces holds at least one sample. -/
theorem bucket_nonempty_groupSamples {l : List Sample} {k : String} {b : Bucket}
    (h : (k, b) ∈ groupSamples l) : b.temps ≠ [] ∧ b.conditions ≠ [] :=
  bucket_nonempty_groupSamplesAux l.length l k b h

/-- Unfolding of `parse_forecast` after a successful extraction phase. -/
theorem parse_forecast_eq (data : Json) (samples : List Sample)
    (hs : extractSamples data = .ok samples) :
    parse_forecast data =
      mapExcept bucketEntry (List.insertionSort keyLE (groupSamples samples)) := by
  unfold parse_forecast
  rw [hs]

/-- Field content of a successfully built forecast entry. -/
theorem bucketEntry_ok_fields {k : String} {b : Bucket} {e : ForecastEntry}
    (h : bucketEntry (k, b) = .ok e) :
    e.max_temp = fmt1 (listMax b.temps) ++ " °C" ∧
    e.min_temp = fmt1 (listMin b.temps) ++ " °C" ∧
    e.condition = pyTitle (mostCommon b.conditions) := by
  unfold bucketEntry at h
  cases hf : formatDateLabel k with
  | error e2 =>
      rw [hf] at h
      simp [Bind.bind, Except.bind] at h
  | ok lbl =>
      rw [hf] at h
      simp only [Bind.bind, Except.bind, Pure.pure, Except.pure, Except.ok.injEq] at h
      subst h
      exact ⟨rfl, rfl, rfl⟩

/-! Claims about the fetch layer. -/

/-- C3. With an API key configured, both fetch functions classify the HTTP
status of the response to the single request they issue: 200 returns the
parsed body, 404 raises a city-not-found `ValueError` naming the requested
city, 401 raises an invalid-API-key `ValueError`, and any other status
raises an API-error `ConnectionError` carrying the status code. -/
theorem fetch_status_classification (cfg : WeatherConfig)
    (net : HttpRequest → HttpResponse) (city : String)
    (hkey : pyTruthy cfg.API_KEY = true) :
    ((net (currentRequest cfg city)).status = 200 →
      fetch_current_weather cfg net city =
        (.ok (net (currentRequest cfg city)).body, [currentRequest cfg city])) ∧
    ((net (currentRequest cfg city)).status = 404 →
      fetch_current_weather cfg net city =
        (.error (.valueError ("City \x27" ++ city ++ "\x27 not found. Please check the name.")),
          [currentRequest cfg city])) ∧
    ((net (currentRequest cfg city)).status = 401 →
      fetch_current_weather cfg net city =
        (.error (.valueError "Invalid API key. Please check config.py."),
          [currentRequest cfg city])) ∧
    ((net (currentRequest cfg city)).status ≠ 200 →
      (net (currentRequest cfg city)).status ≠ 404 →
      (net (currentRequest cfg city)).status ≠ 401 →
      fetch_current_weather cfg net city =
        (.error (.connectionError
            ("API error (status " ++ toString (net (currentRequest cfg city)).status ++ ").")),
          [currentRequest cfg city])) ∧
    ((net (forecastRequest cfg city)).status = 200 →
      fetch_forecast cfg net city =
        (.ok (net (forecastRequest cfg city)).body, [forecastRequest cfg city])) ∧
    ((net (forecastRequest cfg city)).status = 404 →
      fetch_forecast cfg net city =
        (.error (.valueError ("City \x27" ++ city ++ "\x27 not found. Please check the name.")),
          [forecastRequest cfg city])) ∧
    ((net (forecastRequest cfg city)).status = 401 →
      fetch_forecast cfg net city =
        (.error (.valueError "Invalid API key. Please check config.py."),
          [forecastRequest cfg city])) ∧
    ((net (forecastRequest cfg city)).status ≠ 200 →
      (net (forecastRequest cfg city)).status ≠ 404 →
      (net (forecastRequest cfg city)).status ≠ 401 →
      fetch_forecast cfg net city =
        (.error (.connectionError
            ("API error (status " ++ toString (net (forecastRequest cfg city)).status ++ ").")),
          [forecastRequest cfg city])) := by
  have hk : ¬ (pyTruthy cfg.API_KEY = false) := by simp [hkey]
  refine ⟨?_, ?_, ?_, ?_, ?_, ?_, ?_, ?_⟩ <;> intros <;>
    simp_all [fetch_current_weather, fetch_forecast]

/-- C3 witness: with a configured key, a 404 response to the forecast
request yields the city-not-found error, and a 200 response to the current
request returns the body. -/
theorem fetch_status_classification_witness :
    fetch_current_weather ⟨some "k", some "cu", some "fu"⟩
        (fun r => if r.url = some "cu" then ⟨200, .jstr "body"⟩ else ⟨404, .jnull⟩)
        "Paris" =
      (.ok (.jstr "body"), [⟨some "cu", "Paris", "k", "metric", 10⟩]) ∧
    fetch_forecast ⟨some "k", some "cu", some "fu"⟩
        (fun r => if r.url = some "cu" then ⟨200, .jstr "body"⟩ else ⟨404, .jnull⟩)
        "Paris" =
      (.error (.valueError "City \x27Paris\x27 not found. Please check the name."),
        [⟨some "fu", "Paris", "k", "metric", 10⟩]) := by
  have h := fetch_status_classification ⟨some "k", some "cu", some "fu"⟩
    (fun r => if r.url = some "cu" then ⟨200, .jstr "body"⟩ else ⟨404, .jnull⟩)
    "Paris" (by decide)
  exact ⟨h.1 (by decide), h.2.2.2.2.2.1 (by decide)⟩

/-- C7. With no API key configured (absent or empty), both fetch functions
fail at once with the missing-key `ValueError` and issue no HTTP request:
the request trace is empty. -/
theorem fetch_missing_key (cfg : WeatherConfig) (net : HttpRequest → HttpResponse)
    (city : String) (hkey : pyTruthy cfg.API_KEY = false) :
    fetch_current_weather cfg net city =
      (.error (.valueError "API key is missing. Please set it in config.py."), []) ∧
    fetch_forecast cfg net city =
      (.error (.valueError "API key is missing. Please set it in config.py."), []) := by
  constructor <;> simp [fetch_current_weather, fetch_forecast, hkey]

/-- C7 witness: `fetch_missing_key` at an absent key. -/
theorem fetch_missing_key_witness :
    fetch_current_weather ⟨none, some "cu", some "fu"⟩ (fun _ => ⟨200, .jnull⟩) "Paris" =
      (.error (.valueError "API key is missing. Please set it in config.py."), []) ∧
    fetch_forecast ⟨none, some "cu", some "fu"⟩ (fun _ => ⟨200, .jnull⟩) "Paris" =
      (.error (.valueError "API key is missing. Please set it in config.py."), []) :=
  fetch_missing_key ⟨none, some "cu", some "fu"⟩ (fun _ => ⟨200, .jnull⟩) "Paris" (by decide)

/-- C9. The two fetch functions are behaviourally equivalent except for the
endpoint URL: the requests they build agree on the query (stripped city),
key, units and timeout, and whenever the two configured URLs coincide the
functions agree on every configuration, network oracle and city — same
missing-key check, same classification, same messages, same traces. -/
theorem fetch_functions_equivalent (cfg : WeatherConfig)
    (net : HttpRequest → HttpResponse) (city : String) :
    (currentRequest cfg city).q = (forecastRequest cfg city).q ∧
    (currentRequest cfg city).appid = (forecastRequest cfg city).appid ∧
    (currentRequest cfg city).units = (forecastRequest cfg city).units ∧
    (currentRequest cfg city).timeoutSecs = (forecastRequest cfg city).timeoutSecs ∧
    (cfg.CURRENT_WEATHER_URL = cfg.FORECAST_URL →
      fetch_current_weather cfg net city = fetch_forecast cfg net city) := by
  refine ⟨rfl, rfl, rfl, rfl, fun h => ?_⟩
  simp [fetch_current_weather, fetch_forecast, currentRequest, forecastRequest, h]

/-- C9 witness: with the two endpoint URLs equal, the fetch functions give
identical results at a concrete configuration, oracle and city. -/
theorem fetch_functions_equivalent_witness :
    fetch_current_weather ⟨some "k", some "u", some "u"⟩ (fun _ => ⟨500, .jnull⟩) "Rome" =
      fetch_forecast ⟨some "k", some "u", some "u"⟩ (fun _ => ⟨500, .jnull⟩) "Rome" :=
  (fetch_functions_equivalent ⟨some "k", some "u", some "u"⟩
    (fun _ => ⟨500, .jnull⟩) "Rome").2.2.2.2 rfl

/-! Claims about the current-weather parser. -/

/-- C5. On a well-formed current-weather payload, `parse_current_weather`
returns `main.temp` formatted to one decimal with the degree-Celsius
suffix, `weather[0].description` title-cased, `main.humidity` rendered as
an integer with a percent sign, and `wind.speed` rendered as-is with the
metres-per-second suffix. -/
theorem parse_current_weather_fields (data mainV tempV weatherV w0 windV : Json)
    (t : Rat) (desc : String) (hum : Int) (speed : Rat)
    (h1 : jGet data "main" = .ok mainV)
    (h2 : jGet mainV "temp" = .ok tempV)
    (h3 : asNum tempV = .ok t)
    (h4 : jGet data "weather" = .ok weatherV)
    (h5 : jIndex weatherV 0 = .ok w0)
    (h6 : jGet w0 "description" = .ok (.jstr desc))
    (h7 : jGet mainV "humidity" = .ok (.jint hum))
    (h8 : jGet data "wind" = .ok windV)
    (h9 : jGet windV "speed" = .ok (.jfloat speed)) :
    parse_current_weather data =
      .ok { temperature := fmt1 t ++ " °C",
            condition := pyTitle desc,
            humidity := toString hum ++ "%",
            wind_speed := jfloatStr speed ++ " m/s" } := by
  simp [parse_current_weather, h1, h2, h3, h4, h5, h6, h7, h8, h9, asStr, pyStr,
    Bind.bind, Except.bind, Functor.map, Except.map, Pure.pure, Except.pure]

/-- C5 witness: the specification's example payload
`{main: {temp: 20.5, humidity: 65}, weather: [{description: "clear sky"}],
wind: {speed: 3.2}}`. -/
theorem parse_current_weather_fields_witness :
    parse_current_weather (.jobj [
        ("main", .jobj [("temp", .jfloat (Rat.mk' 41 2)), ("humidity", .jint 65)]),
        ("weather", .jarr [.jobj [("description", .jstr "clear sky")]]),
        ("wind", .jobj [("speed", .jfloat (Rat.mk' 16 5))])]) =
      .ok { temperature := "20.5 °C", condition := "Clear Sky",
            humidity := "65%", wind_speed := "3.2 m/s" } := by
  have h := parse_current_weather_fields
    (.jobj [
        ("main", .jobj [("temp", .jfloat (Rat.mk' 41 2)), ("humidity", .jint 65)]),
        ("weather", .jarr [.jobj [("description", .jstr "clear sky")]]),
        ("wind", .jobj [("speed", .jfloat (Rat.mk' 16 5))])])
    (.jobj [("temp", .jfloat (Rat.mk' 41 2)), ("humidity", .jint 65)])
    (.jfloat (Rat.mk' 41 2))
    (.jarr [.jobj [("description", .jstr "clear sky")]])
    (.jobj [("description", .jstr "clear sky")])
    (.jobj [("speed", .jfloat (Rat.mk' 16 5))])
    (Rat.mk' 41 2) "clear sky" 65 (Rat.mk' 16 5)
    rfl rfl rfl rfl rfl rfl rfl rfl rfl
  exact h

/-- C8. The two parsers are pure functions of their input: the embedding
needs no state, oracle or effect to express them, so two applications to
the same input are definitionally the same output. -/
theorem parse_functions_deterministic (data : Json) :
    parse_current_weather data = parse_current_weather data ∧
    parse_forecast data = parse_forecast data :=
  ⟨rfl, rfl⟩

/-- C6. `parse_current_weather` fails with the subscription error of the
first required path that is absent (the error is returned, not recovered:
conjuncts one to eight), succeeds when every required path is present with
a well-shaped value (conjunct nine), and the caller's `except` chain maps a
`KeyError` — whatever the missing key — and an `IndexError` to the one
generic parsing-error message, which names no field (final conjuncts). -/
theorem parse_current_weather_missing_field (data : Json) :
    (∀ e, jGet data "main" = .error e →
        parse_current_weather data = .error e) ∧
    (∀ mainV e, jGet data "main" = .ok mainV →
        jGet mainV "temp" = .error e →
        parse_current_weather data = .error e) ∧
    (∀ mainV tempV t e, jGet data "main" = .ok mainV →
        jGet mainV "temp" = .ok tempV → asNum tempV = .ok t →
        jGet data "weather" = .error e →
        parse_current_weather data = .error e) ∧
    (∀ mainV tempV t weatherV e, jGet data "main" = .ok mainV →
        jGet mainV "temp" = .ok tempV → asNum tempV = .ok t →
        jGet data "weather" = .ok weatherV →
        jIndex weatherV 0 = .error e →
        parse_current_weather data = .error e) ∧
    (∀ mainV tempV t weatherV w0 e, jGet data "main" = .ok mainV →
        jGet mainV "temp" = .ok tempV → asNum tempV = .ok t →
        jGet data "weather" = .ok weatherV → jIndex weatherV 0 = .ok w0 →
        jGet w0 "description" = .error e →
        parse_current_weather data = .error e) ∧
    (∀ mainV tempV t weatherV w0 desc e, jGet data "main" = .ok mainV →
        jGet mainV "temp" = .ok tempV → asNum tempV = .ok t →
        jGet data "weather" = .ok weatherV → jIndex weatherV 0 = .ok w0 →
        jGet w0 "description" = .ok (.jstr desc) →
        jGet mainV "humidity" = .error e →
        parse_current_weather data = .error e) ∧
    (∀ mainV tempV t weatherV w0 desc humV e, jGet data "main" = .ok mainV →
        jGet mainV "temp" = .ok tempV → asNum tempV = .ok t →
        jGet data "weather" = .ok weatherV → jIndex weatherV 0 = .ok w0 →
        jGet w0 "description" = .ok (.jstr desc) →
        jGet mainV "humidity" = .ok humV →
        jGet data "wind" = .error e →
        parse_current_weather data = .error e) ∧
    (∀ mainV tempV t weatherV w0 desc humV windV e, jGet data "main" = .ok mainV →
        jGet mainV "temp" = .ok tempV → asNum tempV = .ok t →
        jGet data "weather" = .ok weatherV → jIndex weatherV 0 = .ok w0 →
        jGet w0 "description" = .ok (.jstr desc) →
        jGet mainV "humidity" = .ok humV →
        jGet data "wind" = .ok windV →
        jGet windV "speed" = .error e →
        parse_current_weather data = .error e) ∧
    (∀ mainV tempV t weatherV w0 desc humV windV speedV, jGet data "main" = .ok mainV →
        jGet mainV "temp" = .ok tempV → asNum tempV = .ok t →
        jGet data "weather" = .ok weatherV → jIndex weatherV 0 = .ok w0 →
        jGet w0 "description" = .ok (.jstr desc) →
        jGet mainV "humidity" = .ok humV →
        jGet data "wind" = .ok windV →
        jGet windV "speed" = .ok speedV →
        ∃ rec, parse_current_weather data = .ok rec) ∧
    (∀ k, searchErrorText (.keyError k) =
        some "Error parsing weather data. Unexpected response format.") ∧
    (searchErrorText .indexError =
        some "Error parsing weather data. Unexpected response format.") := by
  refine ⟨?_, ?_, ?_, ?_, ?_, ?_, ?_, ?_, ?_, fun _ => rfl, rfl⟩ <;>
    (intros; simp_all [parse_current_weather, asStr, pyStr, Bind.bind, Except.bind,
      Functor.map, Except.map, Pure.pure, Except.pure])

/-- C6 witness: on the object `{"weather": ...}` with no `"main"` binding,
the parser fails with `KeyError("main")`, and the caller's handler shows
the generic parsing-error message for it. -/
theorem parse_current_weather_missing_field_witness :
    parse_current_weather (.jobj [("weather", .jarr [])]) = .error (.keyError "main") ∧
    searchErrorText (.keyError "main") =
      some "Error parsing weather data. Unexpected response format." :=
  ⟨(parse_current_weather_missing_field (.jobj [("weather", .jarr [])])).1
      (.keyError "main") rfl,
   (parse_current_weather_missing_field (.jobj [("weather", .jarr [])])).2.2.2.2.2.2.2.2.2.1
      "main"⟩

/-! Claims about the forecast parser. -/

/-- Fixture: the specification's same-day example — two intervals on
2026-02-07 with temperatures 10.0 and 12.0, both "clouds". -/
def fcJson1 : Json := .jobj [("list", .jarr [
  .jobj [("dt_txt", .jstr "2026-02-07 12:00:00"),
         ("main", .jobj [("temp", .jfloat (Rat.mk' 10 1))]),
         ("weather", .jarr [.jobj [("description", .jstr "clouds")]])],
  .jobj [("dt_txt", .jstr "2026-02-07 15:00:00"),
         ("main", .jobj [("temp", .jfloat (Rat.mk' 12 1))]),
         ("weather", .jarr [.jobj [("description", .jstr "clouds")]])]])]

/-- The samples extracted from `fcJson1`. -/
def fcSamples1 : List Sample :=
  [("2026-02-07", Rat.mk' 10 1, "clouds"), ("2026-02-07", Rat.mk' 12 1, "clouds")]

/-- The single forecast entry produced from `fcJson1`. -/
def fcEntry1 : ForecastEntry :=
  { date := "Sat, Feb 07", max_temp := "12.0 °C", min_temp := "10.0 °C",
    condition := "Clouds" }

/-- The forecast entries produced from `fcJson1`. -/
def fcEntries1 : List ForecastEntry := [fcEntry1]

/-- Fixture: the specification's distinct-day example, with the later day
listed first in the raw interval list. -/
def fcJson2 : Json := .jobj [("list", .jarr [
  .jobj [("dt_txt", .jstr "2026-02-08 12:00:00"),
         ("main", .jobj [("temp", .jfloat (Rat.mk' 15 1))]),
         ("weather", .jarr [.jobj [("description", .jstr "clear sky")]])],
  .jobj [("dt_txt", .jstr "2026-02-07 12:00:00"),
         ("main", .jobj [("temp", .jfloat (Rat.mk' 10 1))]),
         ("weather", .jarr [.jobj [("description", .jstr "rain")]])]])]

/-- The samples extracted from `fcJson2`. -/
def fcSamples2 : List Sample :=
  [("2026-02-08", Rat.mk' 15 1, "clear sky"), ("2026-02-07", Rat.mk' 10 1, "rain")]

/-- The forecast entries produced from `fcJson2`, in ascending date order. -/
def fcEntries2 : List ForecastEntry :=
  [{ date := "Sat, Feb 07", max_temp := "10.0 °C", min_temp := "10.0 °C",
     condition := "Rain" },
   { date := "Sun, Feb 08", max_temp := "15.0 °C", min_temp := "15.0 °C",
     condition := "Clear Sky" }]

/-- C2. On a well-formed interval list, `parse_forecast` produces its
entries from the daily buckets in ascending date-key order (first
conjunct), one entry per bucket (second), with one bucket per distinct date
of the samples (Nodup plus membership conjuncts), the bucket sequence
sorted by date key (fifth), and an empty sample list giving an empty
output rather than an error (last). -/
theorem parse_forecast_one_entry_per_date (data : Json) (samples : List Sample)
    (hs : extractSamples data = .ok samples)
    (entries : List ForecastEntry)
    (hp : parse_forecast data = .ok entries) :
    mapExcept bucketEntry (List.insertionSort keyLE (groupSamples samples)) = .ok entries ∧
    entries.length = (groupSamples samples).length ∧
    ((groupSamples samples).map Prod.fst).Nodup ∧
    (∀ k, k ∈ (groupSamples samples).map Prod.fst ↔ k ∈ samples.map Prod.fst) ∧
    List.Pairwise (fun a b : String => strLeb a b = true)
      ((List.insertionSort keyLE (groupSamples samples)).map Prod.fst) ∧
    (samples = [] → entries = []) := by
  have he : mapExcept bucketEntry (List.insertionSort keyLE (groupSamples samples)) =
      .ok entries := by
    rw [← parse_forecast_eq data samples hs]
    exact hp
  refine ⟨he, ?_, nodup_map_fst_groupSamples samples,
    fun k => mem_map_fst_groupSamples samples k, ?_, ?_⟩
  · rw [mapExcept_ok_length he]
    exact (List.perm_insertionSort keyLE (groupSamples samples)).length_eq
  · exact List.Pairwise.map Prod.fst (fun a b hab => hab)
      (List.sorted_insertionSort keyLE (groupSamples samples))
  · intro h
    subst h
    have h0 : (Except.ok [] : Except PyExc (List ForecastEntry)) = .ok entries := he
    exact ((Except.ok.injEq _ _).mp h0).symm

/-- C2 witness: the distinct-day fixture — two entries, one per date, in
ascending date order; the hypotheses evaluate by `rfl`. -/
theorem parse_forecast_one_entry_per_date_witness :
    mapExcept bucketEntry (List.insertionSort keyLE (groupSamples fcSamples2)) =
      .ok fcEntries2 ∧
    fcEntries2.length = (groupSamples fcSamples2).length ∧
    ((groupSamples fcSamples2).map Prod.fst).Nodup ∧
    (∀ k, k ∈ (groupSamples fcSamples2).map Prod.fst ↔ k ∈ fcSamples2.map Prod.fst) ∧
    List.Pairwise (fun a b : String => strLeb a b = true)
      ((List.insertionSort keyLE (groupSamples fcSamples2)).map Prod.fst) ∧
    (fcSamples2 = [] → fcEntries2 = []) :=
  parse_forecast_one_entry_per_date fcJson2 fcSamples2 rfl fcEntries2 rfl

/-- C1. Every output entry of `parse_forecast` comes from a daily bucket of
the grouping: its `max_temp` is the bucket's maximal temperature formatted
to one decimal with the degree suffix, its `min_temp` the minimal one, and
its `condition` a most frequent description of the bucket (its count is
maximal among the bucket's descriptions), title-cased. -/
theorem parse_forecast_bucket_stats (data : Json) (samples : List Sample)
    (hs : extractSamples data = .ok samples)
    (entries : List ForecastEntry)
    (hp : parse_forecast data = .ok entries) :
    ∀ e ∈ entries, ∃ k b, (k, b) ∈ groupSamples samples ∧
      b.temps ≠ [] ∧ b.conditions ≠ [] ∧
      e.max_temp = fmt1 (listMax b.temps) ++ " °C" ∧
      listMax b.temps ∈ b.temps ∧ (∀ t ∈ b.temps, t ≤ listMax b.temps) ∧
      e.min_temp = fmt1 (listMin b.temps) ++ " °C" ∧
      listMin b.temps ∈ b.temps ∧ (∀ t ∈ b.temps, listMin b.temps ≤ t) ∧
      e.condition = pyTitle (mostCommon b.conditions) ∧
      mostCommon b.conditions ∈ b.conditions ∧
      (∀ c ∈ b.conditions,
        b.conditions.count c ≤ b.conditions.count (mostCommon b.conditions)) := by
  intro e he
  rw [parse_forecast_eq data samples hs] at hp
  obtain ⟨kb, hkb, hok⟩ := mapExcept_ok_mem hp e he
  obtain ⟨k, b⟩ := kb
  have hmem : (k, b) ∈ groupSamples samples :=
    (List.perm_insertionSort keyLE (groupSamples samples)).mem_iff.mp hkb
  obtain ⟨ht, hc⟩ := bucket_nonempty_groupSamples hmem
  obtain ⟨hmax, hmin, hcond⟩ := bucketEntry_ok_fields hok
  exact ⟨k, b, hmem, ht, hc, hmax, listMax_mem ht, le_listMax, hmin, listMin_mem ht,
    listMin_le, hcond, mostCommon_mem hc, mostCommon_count_ge hc⟩

/-- C1 witness: the same-day fixture at its single entry — max 12.0, min
10.0, condition "Clouds"; the hypotheses evaluate by `rfl`. -/
theorem parse_forecast_bucket_stats_witness :
    ∃ k b, (k, b) ∈ groupSamples fcSamples1 ∧
      b.temps ≠ [] ∧ b.conditions ≠ [] ∧
      fcEntry1.max_temp = fmt1 (listMax b.temps) ++ " °C" ∧
      listMax b.temps ∈ b.temps ∧ (∀ t ∈ b.temps, t ≤ listMax b.temps) ∧
      fcEntry1.min_temp = fmt1 (listMin b.temps) ++ " °C" ∧
      listMin b.temps ∈ b.temps ∧ (∀ t ∈ b.temps, listMin b.temps ≤ t) ∧
      fcEntry1.condition = pyTitle (mostCommon b.conditions) ∧
      mostCommon b.conditions ∈ b.conditions ∧
      (∀ c ∈ b.conditions,
        b.conditions.count c ≤ b.conditions.count (mostCommon b.conditions)) :=
  parse_forecast_bucket_stats fcJson1 fcSamples1 rfl fcEntries1 rfl
    fcEntry1 (List.mem_singleton.mpr rfl)

/-- C10. The temperatures underlying each entry's `min_temp` and `max_temp`
are the minimum and maximum of one non-empty bucket of temperatures, and
the minimum is less than or equal to the maximum. -/
theorem parse_forecast_min_le_max (data : Json) (samples : List Sample)
    (hs : extractSamples data = .ok samples)
    (entries : List ForecastEntry)
    (hp : parse_forecast data = .ok entries) :
    ∀ e ∈ entries, ∃ temps : List Rat, temps ≠ [] ∧
      e.max_temp = fmt1 (listMax temps) ++ " °C" ∧
      e.min_temp = fmt1 (listMin temps) ++ " °C" ∧
      listMin temps ≤ listMax temps := by
  intro e he
  rw [parse_forecast_eq data samples hs] at hp
  obtain ⟨kb, hkb, hok⟩ := mapExcept_ok_mem hp e he
  obtain ⟨k, b⟩ := kb
  have hmem : (k, b) ∈ groupSamples samples :=
    (List.perm_insertionSort keyLE (groupSamples samples)).mem_iff.mp hkb
  obtain ⟨ht, _⟩ := bucket_nonempty_groupSamples hmem
  obtain ⟨hmax, hmin, _⟩ := bucketEntry_ok_fields hok
  exact ⟨b.temps, ht, hmax, hmin, listMin_le_listMax ht⟩

/-- C10 witness: the same-day fixture at its single entry, where the
underlying minimum 10.0 is at most the maximum 12.0; the hypotheses
evaluate by `rfl`. -/
theorem parse_forecast_min_le_max_witness :
    ∃ temps : List Rat, temps ≠ [] ∧
      fcEntry1.max_temp = fmt1 (listMax temps) ++ " °C" ∧
      fcEntry1.min_temp = fmt1 (listMin temps) ++ " °C" ∧
      listMin temps ≤ listMax temps :=
  parse_forecast_min_le_max fcJson1 fcSamples1 rfl fcEntries1 rfl
    fcEntry1 (List.mem_singleton.mpr rfl)

end Weather
